import Mathlib

/-!
Verification development for the yadda deployment orchestrator.

The definitions below are a shallow embedding of the JavaScript source:
  - `lib/deployment-center.js` (the History Store over DynamoDB),
  - `lib/deployment-tasks.js`  (the deployment pipeline),
  - `lib/aws-tools.js`         (the ECS / ECR wrappers).

JavaScript objects whose fields may be `undefined` are modelled with
`Option`; the DynamoDB table is modelled as a list of records with unique
keys; remote calls that may fail are modelled by oracle parameters
returning `Except String` results (or `Option String` error outcomes),
and promise-chain rejection is modelled by `Except` propagation.
-/

set_option autoImplicit false

/-- Primary key of a deployment record: models the DynamoDB key
`(appName, deploymentTimestamp)` and the `parentDeployment` reference
object `{appName, deploymentTimestamp}`. -/
structure DKey where
  appName : String
  deploymentTimestamp : Nat
deriving DecidableEq, Repr

/-- Models a `DeployableTaskItem` as built by `buildDeployableTaskItems`
in `lib/deployment-tasks.js`. Fields that a JavaScript object may simply
lack (`serviceName` on jobs, `schedule`, `runOnDeploy`, an unresolved
`taskDefinitionArn`) are `Option`s. -/
structure TaskItem where
  taskId : String
  taskType : String
  taskDefinitionArn : Option String
  serviceName : Option String
  ecsCluster : Option String
  ecsRegion : Option String
  schedule : Option String
  runOnDeploy : Option String
deriving DecidableEq, Repr

/-- Models a manifest `taskTemplate`: the fields that
`createTaskDefinition` in `lib/deployment-tasks.js` reads or rewrites. -/
structure TaskTemplate where
  image : String
  containerName : String
deriving DecidableEq, Repr

/-- Models one entry of `options.services` / `options.jobs` from the
validated manifest, plus the `taskDefinitionArn` attached to it by
`updateTaskDefinitions`. -/
structure TaskConfig where
  activeFlag : Option Bool
  taskTemplate : Option TaskTemplate
  cluster : Option String
  schedule : Option String
  runOnDeploy : Option String
  initialCount : Option Nat
  taskDefinitionArn : Option String
deriving DecidableEq, Repr

/-- Models a persisted Deployment record of the History Store
(`lib/deployment-center.js`). The embedded configuration snapshot
`deploymentInformation` is flattened to the three fields the source
reads from it: `deploymentInformation.deploymentTimestamp`
(`infoTimestamp`), `deploymentInformation.services` (`infoServices`) and
`deploymentInformation.currentDeployment` (`infoCurrentDeployment`,
recursive: the snapshot holds the previous record). -/
inductive DeploymentRecord : Type where
  | mk (appName : String) (environment : String) (deploymentTimestamp : Nat)
       (active : Nat) (tasks : List TaskItem) (parentDeployment : Option DKey)
       (infoTimestamp : Nat) (infoServices : List (String × TaskConfig))
       (infoCurrentDeployment : Option DeploymentRecord) : DeploymentRecord

def DeploymentRecord.appName : DeploymentRecord → String
  | .mk a _ _ _ _ _ _ _ _ => a

def DeploymentRecord.environment : DeploymentRecord → String
  | .mk _ e _ _ _ _ _ _ _ => e

def DeploymentRecord.deploymentTimestamp : DeploymentRecord → Nat
  | .mk _ _ ts _ _ _ _ _ _ => ts

def DeploymentRecord.active : DeploymentRecord → Nat
  | .mk _ _ _ a _ _ _ _ _ => a

def DeploymentRecord.tasks : DeploymentRecord → List TaskItem
  | .mk _ _ _ _ tk _ _ _ _ => tk

def DeploymentRecord.parentDeployment : DeploymentRecord → Option DKey
  | .mk _ _ _ _ _ p _ _ _ => p

def DeploymentRecord.infoTimestamp : DeploymentRecord → Nat
  | .mk _ _ _ _ _ _ it _ _ => it

def DeploymentRecord.infoServices : DeploymentRecord → List (String × TaskConfig)
  | .mk _ _ _ _ _ _ _ sv _ => sv

def DeploymentRecord.infoCurrentDeployment : DeploymentRecord → Option DeploymentRecord
  | .mk _ _ _ _ _ _ _ _ c => c

/-- DynamoDB key of a stored record. -/
def keyOf (r : DeploymentRecord) : DKey :=
  ⟨r.appName, r.deploymentTimestamp⟩

/-- Record with the `active` attribute replaced (the effect of the
`SET active = :active` update expression on a stored item). -/
def setActiveAttr (r : DeploymentRecord) (a : Nat) : DeploymentRecord :=
  match r with
  | .mk an e ts _ tk p it sv c => .mk an e ts a tk p it sv c

/-- Record with `deploymentTimestamp` and `active` replaced (the two
assignments performed by `DeploymentCenter.prototype.finalizeDeployment`
before the `put`). -/
def setTsAndActive (r : DeploymentRecord) (ts a : Nat) : DeploymentRecord :=
  match r with
  | .mk an e _ _ tk p it sv c => .mk an e ts a tk p it sv c

/-- The History Store table: a list of records. DynamoDB guarantees key
uniqueness; `keysUnique` states it. -/
abbrev Table := List DeploymentRecord

def keysUnique (t : Table) : Prop :=
  t.Pairwise (fun a b => keyOf a ≠ keyOf b)

namespace DeploymentCenter

/-- Boolean predicate of the active-deployment query: the key condition
`appName = :appName AND active = :active (= 1)` on the DeploymentStatus
index together with the filter expression `environment = :environment`. -/
def activeQueryPred (appName environment : String) (r : DeploymentRecord) : Bool :=
  r.appName == appName && r.active == 1 && r.environment == environment

/-- Result list of the active-deployment query issued by
`getCurrentDeployedVersion` (before `_.head`). -/
def getActiveDeployments (t : Table) (appName environment : String) :
    List DeploymentRecord :=
  t.filter (activeQueryPred appName environment)

/-- Embeds `DeploymentCenter.prototype.getCurrentDeployedVersion`:
the query followed by `_.head(results.Items)`. -/
def getCurrentDeployedVersion (t : Table) (appName environment : String) :
    Option DeploymentRecord :=
  (getActiveDeployments t appName environment).head?

/-- Embeds `DeploymentCenter.prototype.get`: a falsy input deliberately
short-circuits to no deployment without a store round-trip; otherwise a
point lookup by primary key. -/
def get (t : Table) (deployment : Option DKey) : Option DeploymentRecord :=
  match deployment with
  | none => none
  | some k => t.find? (fun r => keyOf r == k)

/-- Effect of the DynamoDB `update` call with expression
`SET active = :active` on key `k`: updates the item with that key, or
(DynamoDB upsert semantics) creates a bare item carrying only the key
attributes and `active` when no item has the key. -/
def dynamoUpdateActive (t : Table) (k : DKey) (a : Nat) : Table :=
  if t.any (fun r => keyOf r == k) then
    t.map (fun r => if keyOf r == k then setActiveAttr r a else r)
  else
    t ++ [.mk k.appName "" k.deploymentTimestamp a [] none 0 [] none]

/-- Effect of the DynamoDB `put` call: replaces the item with the same
key, or appends the item when its key is new. -/
def dynamoPut (t : Table) (item : DeploymentRecord) : Table :=
  if t.any (fun r => keyOf r == keyOf item) then
    t.map (fun r => if keyOf r == keyOf item then item else r)
  else
    t ++ [item]

/-- Embeds `DeploymentCenter.prototype.setActiveStatusForDeployment`.
The remote `update` call may fail; `updateOk = false` models its
rejection, which the promise chain propagates. On success the store is
updated (active persisted as the integer `1`/`0`). -/
def setActiveStatusForDeployment (updateOk : Bool) (t : Table) (k : DKey)
    (active : Bool) : Except String Table :=
  if updateOk then
    .ok (dynamoUpdateActive t k (if active then 1 else 0))
  else
    .error "update failed"

/-- Embeds `DeploymentCenter.prototype.finalizeDeployment`. When
`parentDeployment` is set the parent is deactivated first; a rejection
of that step propagates (the `.then` continuation holding the `put` is
skipped), so the new record is only written after a successful
deactivation. On the success path the record is written with
`deploymentTimestamp` taken from `deploymentInformation` and
`active = 1`. `updateOk` / `putOk` model success of the two remote
calls. -/
def finalizeDeployment (updateOk putOk : Bool) (t : Table)
    (deployment : DeploymentRecord) :
    Except String (Table × DeploymentRecord) :=
  let ts := deployment.infoTimestamp
  let putStep : Table → Except String (Table × DeploymentRecord) := fun t1 =>
    if putOk then
      let final := setTsAndActive deployment ts 1
      .ok (dynamoPut t1 final, final)
    else
      .error "put failed"
  match deployment.parentDeployment with
  | some p =>
    match setActiveStatusForDeployment updateOk t p false with
    | .error e => .error e
    | .ok t1 => putStep t1
  | none => putStep t

end DeploymentCenter

/-- Models the mutable `options` object threaded through the deployment
pipeline of `lib/deployment-tasks.js`. `images` maps a logical image id
to the pushed reference `t` attached by the image pipeline (absent when
not built). `parentDeploymentRec` is the full parent record attached by
`extractSettingsFromParentDeployment` on the rollback path. -/
structure DeploymentOptions where
  AppName : String
  environment : String
  awsRegion : String
  updateOnly : Option (List String)
  images : List (String × Option String)
  services : List (String × TaskConfig)
  jobs : List (String × TaskConfig)
  serviceTasks : List TaskItem
  jobTasks : List TaskItem
  currentDeployment : Option DeploymentRecord
  parentDeploymentRec : Option DeploymentRecord
  deploymentTimestamp : Nat

namespace DeploymentTasks

/-- Effect of `_.unset(currentDeployedVersion,
'deploymentInformation.currentDeployment')` in `getCurrentDeployment`. -/
def trimCurrentDeployment (r : DeploymentRecord) : DeploymentRecord :=
  match r with
  | .mk an e ts a tk p it sv _ => .mk an e ts a tk p it sv none

/-- Embeds the `getCurrentDeployment` pipeline stage: fetch the active
deployment, strip its nested configuration snapshot of the previous
record, and attach it to the options. -/
def getCurrentDeploymentStep (t : Table) (o : DeploymentOptions) :
    DeploymentOptions :=
  let cur := DeploymentCenter.getCurrentDeployedVersion t o.AppName o.environment
  { o with currentDeployment := cur.map trimCurrentDeployment }

/-- Embeds `pruneTasks`: drops service and job entries whose `active`
manifest flag is explicitly false (`_.get(taskInfo, 'active', true)`). -/
def pruneTasks (o : DeploymentOptions) : DeploymentOptions :=
  { o with
    services := o.services.filter (fun sc => sc.2.activeFlag.getD true),
    jobs := o.jobs.filter (fun jc => jc.2.activeFlag.getD true) }

/-- Embeds the `shouldUpdate` predicate of `updateTaskDefinitions`:
`_.isNil(updateOnly) || _.includes(updateOnly, taskId)`. -/
def shouldUpdate (updateOnly : Option (List String)) (taskId : String) : Bool :=
  updateOnly.isNone || (updateOnly.getD []).contains taskId

/-- Task-definition payload assembled by `createTaskDefinition`: the two
fields it rewrites (`image` substitution and the derived `family`). -/
structure TaskDefPayload where
  image : String
  family : String
deriving DecidableEq, Repr

/-- Embeds `_.get(options, ['images', image, 't'], image)`: the pushed
reference of the logical image, or the name itself when it is not a
logical image id (a concrete external image). -/
def imageLookup (images : List (String × Option String)) (image : String) :
    String :=
  ((images.lookup image).join).getD image

/-- Embeds `createTaskDefinition` in `lib/deployment-tasks.js`. -/
def createTaskDefinition (tpl : TaskTemplate) (taskId : String)
    (o : DeploymentOptions) : TaskDefPayload :=
  { image := imageLookup o.images tpl.image,
    family := String.intercalate "-" [o.AppName, taskId, o.environment] }

/-- Embeds `registerTaskDefinition`: the Cluster API registration (the
oracle `reg`, returning the fresh ARN or a remote error) with its
failure wrapped in a message naming the offending task. -/
def registerTaskDefinition (reg : TaskDefPayload → Except String String)
    (taskName : String) (payload : TaskDefPayload) : Except String String :=
  match reg payload with
  | .ok arn => .ok arn
  | .error err =>
    .error ("Error registering task definition for " ++ taskName ++
      ". Check manifest files for missing parameters. (" ++ err ++ ")")

/-- Embeds the reuse lookup of `updateTaskDefinitions`:
`_.chain(options).get(['currentDeployment', 'tasks'])
.filter({taskId}).map('taskDefinitionArn').head()`. -/
def lookupArnInCurrent (cur : Option DeploymentRecord) (taskId : String) :
    Option String :=
  match cur with
  | none => none
  | some c =>
    (((c.tasks.filter (fun tk => tk.taskId == taskId)).map
       TaskItem.taskDefinitionArn).head?).join

/-- Embeds `createTaskDefinitions` inside `updateTaskDefinitions`: a
sequential `promiseMap` over the task dictionary, rejecting on the first
failure (a missing template or a failed registration), and on overall
success attaching each resolved ARN to its entry. The second component
of the result records which task ids were actually registered with the
Cluster API. -/
def createTaskDefinitions (reg : TaskDefPayload → Except String String)
    (o : DeploymentOptions) :
    List (String × TaskConfig) →
    Except String (List (String × TaskConfig) × List String)
  | [] => .ok ([], [])
  | (taskId, cfg) :: rest =>
    if shouldUpdate o.updateOnly taskId then
      match cfg.taskTemplate with
      | none => .error (taskId ++ " is missing a task template.")
      | some tpl =>
        match registerTaskDefinition reg taskId (createTaskDefinition tpl taskId o) with
        | .error e => .error e
        | .ok arn =>
          match createTaskDefinitions reg o rest with
          | .error e => .error e
          | .ok (rest1, log) =>
            .ok ((taskId, { cfg with taskDefinitionArn := some arn }) :: rest1,
                 taskId :: log)
    else
      match createTaskDefinitions reg o rest with
      | .error e => .error e
      | .ok (rest1, log) =>
        .ok ((taskId,
              { cfg with taskDefinitionArn := lookupArnInCurrent o.currentDeployment taskId })
             :: rest1, log)

/-- Embeds the `updateTaskDefinitions` pipeline stage: services first,
then jobs, each through `createTaskDefinitions`. -/
def updateTaskDefinitions (reg : TaskDefPayload → Except String String)
    (o : DeploymentOptions) :
    Except String (DeploymentOptions × List String) :=
  match createTaskDefinitions reg o o.services with
  | .error e => .error e
  | .ok (services1, log1) =>
    let o1 := { o with services := services1 }
    match createTaskDefinitions reg o1 o1.jobs with
    | .error e => .error e
    | .ok (jobs1, log2) => .ok ({ o1 with jobs := jobs1 }, log1 ++ log2)

/-- JavaScript truthiness of an optional string attribute (`undefined`
and the empty string are falsy). -/
def truthyStr : Option String → Bool
  | none => false
  | some s => !(s == "")

/-- Field copied only when truthy (`if (jobInfo.schedule) task.schedule
= jobInfo.schedule`). -/
def truthyOpt : Option String → Option String
  | none => none
  | some v => if v == "" then none else some v

/-- Embeds the `buildDeployableTaskItems` pipeline stage: entries whose
`taskDefinitionArn` is not truthy are dropped (`_.pickBy`), the rest are
mapped to `DeployableTaskItem`s. -/
def buildDeployableTaskItems (o : DeploymentOptions) : DeploymentOptions :=
  let serviceTasks :=
    (o.services.filter (fun sc => truthyStr sc.2.taskDefinitionArn)).map
      (fun sc =>
        { taskId := sc.1,
          taskType := "service",
          taskDefinitionArn := sc.2.taskDefinitionArn,
          serviceName :=
            some (String.intercalate "-" [o.AppName, sc.1, o.environment]),
          ecsCluster := sc.2.cluster,
          ecsRegion := some o.awsRegion,
          schedule := none,
          runOnDeploy := none : TaskItem })
  let jobTasks :=
    (o.jobs.filter (fun jc => truthyStr jc.2.taskDefinitionArn)).map
      (fun jc =>
        { taskId := jc.1,
          taskType := "job",
          taskDefinitionArn := jc.2.taskDefinitionArn,
          serviceName := none,
          ecsCluster := jc.2.cluster,
          ecsRegion := some o.awsRegion,
          schedule := truthyOpt jc.2.schedule,
          runOnDeploy := truthyOpt jc.2.runOnDeploy : TaskItem })
  { o with serviceTasks := serviceTasks, jobTasks := jobTasks }

/-- Embeds the assembly of the new Deployment record at the start of the
`finalizeDeployment` pipeline stage: tasks are `serviceTasks` followed
by `jobTasks`, the options snapshot becomes `deploymentInformation`, and
the parent reference is taken from `currentDeployment` when present.
`deploymentTimestamp` and `active` are not set here (the History Store
sets them); they are modelled as `0`. -/
def assembleDeployment (o : DeploymentOptions) : DeploymentRecord :=
  .mk o.AppName o.environment 0 0 (o.serviceTasks ++ o.jobTasks)
    (o.currentDeployment.map keyOf)
    o.deploymentTimestamp o.services o.currentDeployment

/-- One ECS API call issued during service reconciliation, as observed
on the wire: DescribeServices, UpdateService with a new task definition,
UpdateService with a desired count, CreateService, DeleteService. -/
inductive EcsCall where
  | describeSvc (serviceName ecsCluster : Option String)
  | updateSvcArn (serviceName ecsCluster : Option String)
      (taskDefinitionArn : Option String)
  | updateSvcCount (serviceName ecsCluster : Option String)
      (desiredCount : Nat)
  | createSvc (serviceName ecsCluster : Option String)
      (taskDefinitionArn : Option String) (desiredCount : Nat)
  | deleteSvc (serviceName ecsCluster : Option String)
deriving DecidableEq, Repr

/-- Service name carried by an ECS call. -/
def EcsCall.callServiceName : EcsCall → Option String
  | .describeSvc n _ => n
  | .updateSvcArn n _ _ => n
  | .updateSvcCount n _ _ => n
  | .createSvc n _ _ _ => n
  | .deleteSvc n _ => n

def EcsCall.isCreate : EcsCall → Bool
  | .createSvc _ _ _ _ => true
  | _ => false

def EcsCall.isUpdateArn : EcsCall → Bool
  | .updateSvcArn _ _ _ => true
  | _ => false

/-- Outcome oracle for the remote ECS calls: `describeRes` yields the
reported status of the named service (`none` when the service does not
exist), the others yield `some errorMessage` when the call fails. -/
structure EcsWorld where
  describeRes : TaskItem → Except String (Option String)
  updateRes : TaskItem → Option String
  createRes : TaskItem → Option String
  scaleToZeroRes : TaskItem → Option String
  deleteRes : TaskItem → Option String

/-- Error wrapper applied by the per-service `.catch` inside
`updateServices` (note: the source has no space after `service`). -/
def wrapServiceError (taskId msg : String) : String :=
  "Error updating service" ++ taskId ++
    ". Check manifest file for missing parameters. (" ++ msg ++ ")"

/-- Embeds the per-service body of `updateServices`: describe the
service; when it exists with status ACTIVE, update it to the new task
definition ARN; otherwise create it from the manifest service template
(`initialCount || 1`, so an absent or zero count becomes 1). A missing
template makes `createService` throw before the ECS call (reading
`initialCount` of `undefined`), which the promise chain turns into a
rejection. Every failure is wrapped with the task id. Returns the ECS
calls issued and the error, if any. -/
def updateOneService (w : EcsWorld) (servicesCfg : List (String × TaskConfig))
    (st : TaskItem) : List EcsCall × Option String :=
  match w.describeRes st with
  | .error e =>
    ([.describeSvc st.serviceName st.ecsCluster],
     some (wrapServiceError st.taskId e))
  | .ok status =>
    if status == some "ACTIVE" then
      match w.updateRes st with
      | some e =>
        ([.describeSvc st.serviceName st.ecsCluster,
          .updateSvcArn st.serviceName st.ecsCluster st.taskDefinitionArn],
         some (wrapServiceError st.taskId e))
      | none =>
        ([.describeSvc st.serviceName st.ecsCluster,
          .updateSvcArn st.serviceName st.ecsCluster st.taskDefinitionArn],
         none)
    else
      match servicesCfg.lookup st.taskId with
      | none =>
        ([.describeSvc st.serviceName st.ecsCluster],
         some (wrapServiceError st.taskId
           "TypeError: Cannot read property initialCount of undefined"))
      | some tpl =>
        let cnt := match tpl.initialCount with
          | none => 1
          | some n => if n == 0 then 1 else n
        match w.createRes st with
        | some e =>
          ([.describeSvc st.serviceName st.ecsCluster,
            .createSvc st.serviceName st.ecsCluster st.taskDefinitionArn cnt],
           some (wrapServiceError st.taskId e))
        | none =>
          ([.describeSvc st.serviceName st.ecsCluster,
            .createSvc st.serviceName st.ecsCluster st.taskDefinitionArn cnt],
           none)

/-- Embeds the `promiseMap` over `deploymentInformation.serviceTasks` in
`updateServices`: items are processed sequentially and the first
rejection stops the chain (later items are never processed). -/
def processDesiredServices (w : EcsWorld)
    (servicesCfg : List (String × TaskConfig)) :
    List TaskItem → List EcsCall × Option String
  | [] => ([], none)
  | st :: rest =>
    match updateOneService w servicesCfg st with
    | (log, some e) => (log, some e)
    | (log, none) =>
      let (log2, err) := processDesiredServices w servicesCfg rest
      (log ++ log2, err)

/-- Embeds `ContainerService.prototype.deleteService` in
`lib/aws-tools.js`: scale the service to desired count 0, then delete
it; a failure of the scaling call reports `Error Deleting Service ...`
and skips the delete call. -/
def deleteService (w : EcsWorld) (st : TaskItem) :
    List EcsCall × Option String :=
  match w.scaleToZeroRes st with
  | some _ =>
    ([.updateSvcCount st.serviceName st.ecsCluster 0],
     some ("Error Deleting Service " ++ st.serviceName.getD "undefined"))
  | none =>
    ([.updateSvcCount st.serviceName st.ecsCluster 0,
      .deleteSvc st.serviceName st.ecsCluster],
     w.deleteRes st)

/-- Embeds `servicesRemovedInThisDeployment`: tasks of the current
deployment with `taskType = service` whose `taskId` is absent from the
new desired service-task set. -/
def removedServices (cur : Option DeploymentRecord) (desired : List TaskItem) :
    List TaskItem :=
  match cur with
  | none => []
  | some c =>
    (c.tasks.filter (fun tk => tk.taskType == "service")).filter
      (fun tk => !(desired.any (fun d => d.taskId == tk.taskId)))

/-- The `promiseMap` over the removed services (sequential,
fail-fast). -/
def processRemovals (w : EcsWorld) :
    List TaskItem → List EcsCall × Option String
  | [] => ([], none)
  | st :: rest =>
    match deleteService w st with
    | (log, some e) => (log, some e)
    | (log, none) =>
      let (log2, err) := processRemovals w rest
      (log ++ log2, err)

/-- Embeds the `updateServices` pipeline stage: process the desired
service tasks, then tear down the removed services; a rejection anywhere
propagates out of the stage. Returns the ECS calls issued and the
outcome. -/
def updateServices (w : EcsWorld) (o : DeploymentOptions) :
    List EcsCall × Except String DeploymentOptions :=
  match processDesiredServices w o.services o.serviceTasks with
  | (log1, some e) => (log1, .error e)
  | (log1, none) =>
    match processRemovals w (removedServices o.currentDeployment o.serviceTasks) with
    | (log2, some e) => (log1 ++ log2, .error e)
    | (log2, none) => (log1 ++ log2, .ok o)

/-- Composition of the last two stages of the deploy pipeline that touch
shared state: `.then(updateServices(...)).then(finalizeDeployment())`.
A rejection of `updateServices` skips finalization, leaving the History
Store untouched. -/
def reconcileAndFinalize (w : EcsWorld) (updateOk putOk : Bool) (t : Table)
    (o : DeploymentOptions) :
    List EcsCall × Except String (Table × DeploymentRecord) :=
  match updateServices w o with
  | (log, .error e) => (log, .error e)
  | (log, .ok o1) =>
    (log, DeploymentCenter.finalizeDeployment updateOk putOk t (assembleDeployment o1))

/-- One call issued by `runOnDeployJobs`, with the settlement outcome
recorded (`Q.allSettled` collects failures instead of rejecting). -/
inductive JobCall where
  | runTaskCall (taskId : String) (taskDefinitionArn : Option String)
      (err : Option String)
  | waitStable (ecsCluster : Option String) (services : List (Option String))
      (err : Option String)
deriving DecidableEq, Repr

def JobCall.isRunTask : JobCall → Bool
  | .runTaskCall _ _ _ => true
  | _ => false

def JobCall.isWait : JobCall → Bool
  | .waitStable _ _ _ => true
  | _ => false

/-- Job tasks of the given on-deploy phase:
`_.filter({taskType: 'job', runOnDeploy: phase})`. -/
def jobsInPhase (tasks : List TaskItem) (phase : String) : List TaskItem :=
  tasks.filter (fun tk => tk.taskType == "job" && tk.runOnDeploy == some phase)

/-- Keys of `_.groupBy` in first-occurrence order. -/
def firstOccurrence (l : List (Option String)) : List (Option String) :=
  l.foldl (fun acc k => if acc.contains k then acc else acc ++ [k]) []

/-- Embeds `_.chunk(value, n)`. -/
def chunksOf {α : Type} (n : Nat) : List α → List (List α)
  | [] => []
  | x :: xs => (x :: xs.take (n - 1)) :: chunksOf n (xs.drop (n - 1))
termination_by l => l.length
decreasing_by simp [List.length_drop]; omega

/-- Embeds the stability-wait step of `runOnDeployJobs`: group the
deployed service tasks by `ecsCluster`, chunk each group by 10, and
issue one `waitForServicesStable` call per chunk. -/
def serviceWaitCalls
    (waitRes : Option String → List (Option String) → Option String)
    (tasks : List TaskItem) : List JobCall :=
  let svc := tasks.filter (fun tk => tk.taskType == "service")
  (firstOccurrence (svc.map TaskItem.ecsCluster)).flatMap (fun k =>
    (chunksOf 10 (svc.filter (fun tk => tk.ecsCluster == k))).map (fun ch =>
      let names := ch.map TaskItem.serviceName
      .waitStable k names (waitRes k names)))

/-- Embeds the `runOnDeployJobs` pipeline stage. Each phase is an
`Q.allSettled` over the triggered calls, so individual failures are
collected and never reject the chain: the stage always completes and
passes the finalized record through (`thenResolve(results)`). The three
phases are strictly sequenced by the promise chain: all before-phase
job triggers are issued, then the stability waits, then the after-phase
job triggers. -/
def runOnDeployJobs (runRes : TaskItem → Option String)
    (waitRes : Option String → List (Option String) → Option String)
    (results : DeploymentRecord) : List JobCall × DeploymentRecord :=
  let beforeCalls := (jobsInPhase results.tasks "before").map
    (fun tk => .runTaskCall tk.taskId tk.taskDefinitionArn (runRes tk))
  let waitCalls := serviceWaitCalls waitRes results.tasks
  let afterCalls := (jobsInPhase results.tasks "after").map
    (fun tk => .runTaskCall tk.taskId tk.taskDefinitionArn (runRes tk))
  (beforeCalls ++ waitCalls ++ afterCalls, results)

/-- The rollback precondition message of `exports.rollback`. -/
def noRollbackMsg : String :=
  "No existing deployment in this environment to rollback from."

/-- Embeds the precondition step of `exports.rollback`: reject when no
current deployment was found. -/
def requireCurrentDeployment (o : DeploymentOptions) :
    Except String DeploymentOptions :=
  match o.currentDeployment with
  | some _ => .ok o
  | none => .error noRollbackMsg

/-- Embeds `extractSettingsFromParentDeployment`: fetch the parent
record (an absent parent reference short-circuits to no record), attach
it, and re-derive the service-task set, job-task set and service
templates from it. -/
def extractSettingsFromParentDeployment (t : Table) (o : DeploymentOptions) :
    DeploymentOptions :=
  let parentRec :=
    DeploymentCenter.get t (o.currentDeployment.bind DeploymentRecord.parentDeployment)
  let parentTasks := (parentRec.map DeploymentRecord.tasks).getD []
  { o with
    parentDeploymentRec := parentRec,
    serviceTasks := parentTasks.filter (fun tk => tk.taskType == "service"),
    jobTasks := parentTasks.filter (fun tk => tk.taskType == "job"),
    services := (parentRec.map DeploymentRecord.infoServices).getD [] }

/-- Embeds `finalizeRollback`: deactivate the current deployment, then
reactivate the parent only when a parent record exists, and resolve to
the (possibly absent) parent record; setActiveStatusForDeployment also
sets `active` on the returned object. `upd1Ok` / `upd2Ok` model the two
store calls. -/
def finalizeRollback (upd1Ok upd2Ok : Bool) (t : Table)
    (o : DeploymentOptions) :
    Except String (Table × Option DeploymentRecord) :=
  match o.currentDeployment with
  | none => .error "TypeError: Cannot read property appName of undefined"
  | some cur =>
    match DeploymentCenter.setActiveStatusForDeployment upd1Ok t (keyOf cur) false with
    | .error e => .error e
    | .ok t1 =>
      match o.parentDeploymentRec with
      | some par =>
        match DeploymentCenter.setActiveStatusForDeployment upd2Ok t1 (keyOf par) true with
        | .error e => .error e
        | .ok t2 => .ok (t2, some (setActiveAttr par 1))
      | none => .ok (t1, none)

/-- Embeds `exports.rollback` (minus the deployment-center connection
setup): fetch the current deployment, require it to exist, re-derive the
parent settings, re-run the Service Reconciler, and flip the active
flags. Returns the ECS calls issued and the outcome. -/
def rollback (w : EcsWorld) (upd1Ok upd2Ok : Bool) (t : Table)
    (o : DeploymentOptions) :
    List EcsCall × Except String (Table × Option DeploymentRecord) :=
  let o1 := getCurrentDeploymentStep t o
  match requireCurrentDeployment o1 with
  | .error e => ([], .error e)
  | .ok o2 =>
    let o3 := extractSettingsFromParentDeployment t o2
    match updateServices w o3 with
    | (log, .error e) => (log, .error e)
    | (log, .ok o4) => (log, finalizeRollback upd1Ok upd2Ok t o4)

end DeploymentTasks

/-! Concrete instances used by witnesses and counterexamples. -/

/-- A stored active deployment of app `app` in environment `prod`. -/
def pEx : DeploymentRecord :=
  .mk "app" "prod" 1 1 [] none 0 [] none

/-- A new deployment of the same app and environment whose parent is
`pEx` and whose configuration snapshot carries timestamp 5. -/
def dEx : DeploymentRecord :=
  .mk "app" "prod" 0 0 [] (some ⟨"app", 1⟩) 5 [] none

/-- A manifest service entry with a resolved task-definition ARN. -/
def cfgWebEx : TaskConfig :=
  { activeFlag := none, taskTemplate := none, cluster := some "main",
    schedule := none, runOnDeploy := none, initialCount := none,
    taskDefinitionArn := some "arn:web:1" }

/-- Deployment options holding one service entry with a resolved ARN. -/
def oEx : DeploymentOptions :=
  { AppName := "app", environment := "prod", awsRegion := "us-east-1",
    updateOnly := none, images := [], services := [("web", cfgWebEx)],
    jobs := [], serviceTasks := [], jobTasks := [],
    currentDeployment := none, parentDeploymentRec := none,
    deploymentTimestamp := 5 }

/-- The deployable task item built from the `web` entry of `oEx`. -/
def tkWebEx : TaskItem :=
  { taskId := "web", taskType := "service",
    taskDefinitionArn := some "arn:web:1",
    serviceName := some "app-web-prod", ecsCluster := some "main",
    ecsRegion := some "us-east-1", schedule := none, runOnDeploy := none }

/-- Dictionary access `tasks[taskId]`: the first entry with the given
key. -/
def lookupCfg (l : List (String × TaskConfig)) (taskId : String) :
    Option TaskConfig :=
  (l.find? (fun e => e.1 == taskId)).map Prod.snd

/-- A Cluster API registration oracle returning a fresh ARN derived from
the task family. -/
def regEx : DeploymentTasks.TaskDefPayload → Except String String :=
  fun p => .ok ("arn:new:" ++ p.family)

/-- Manifest service entry with a task template and no resolved ARN. -/
def cfgAEx : TaskConfig :=
  { activeFlag := none, taskTemplate := some ⟨"img", "web"⟩,
    cluster := some "main", schedule := none, runOnDeploy := none,
    initialCount := none, taskDefinitionArn := none }

/-- Manifest service entry with no task template and no resolved ARN. -/
def cfgBEx : TaskConfig :=
  { activeFlag := none, taskTemplate := none, cluster := some "main",
    schedule := none, runOnDeploy := none, initialCount := none,
    taskDefinitionArn := none }

/-- The task item for service B as recorded in the current deployment. -/
def tkBOldEx : TaskItem :=
  { taskId := "B", taskType := "service",
    taskDefinitionArn := some "arn:B:7",
    serviceName := some "app-B-prod", ecsCluster := some "main",
    ecsRegion := some "us-east-1", schedule := none, runOnDeploy := none }

/-- A current deployment whose tasks include service B. -/
def curEx : DeploymentRecord :=
  .mk "app" "prod" 1 1 [tkBOldEx] none 0 [] none

/-- Options for a selective deploy: `updateOnly = [A]`, current
deployment holding the old ARN of B. -/
def oSelEx : DeploymentOptions :=
  { oEx with updateOnly := some ["A"],
             currentDeployment := some curEx,
             services := [("A", cfgAEx), ("B", cfgBEx)] }

/-- A manifest job entry with a task template (a job new in this
deploy). -/
def cfgJobEx : TaskConfig :=
  { activeFlag := none, taskTemplate := some ⟨"imgJ", "jobc"⟩,
    cluster := some "main", schedule := none, runOnDeploy := none,
    initialCount := none, taskDefinitionArn := none }

/-- The task item for service web as recorded in the current
deployment. -/
def tkWebOldEx : TaskItem :=
  { taskId := "web", taskType := "service",
    taskDefinitionArn := some "arn:web:0",
    serviceName := some "app-web-prod", ecsCluster := some "main",
    ecsRegion := some "us-east-1", schedule := none, runOnDeploy := none }

/-- A current deployment holding only the web service. -/
def curWebEx : DeploymentRecord :=
  .mk "app" "prod" 1 1 [tkWebOldEx] none 0 [] none

/-- A manifest service entry for web with a task template. -/
def cfgWebTplEx : TaskConfig :=
  { activeFlag := none, taskTemplate := some ⟨"img", "web"⟩,
    cluster := some "main", schedule := none, runOnDeploy := none,
    initialCount := none, taskDefinitionArn := none }

/-- Options for a second deploy with `updateOnly = [web]` and an
unrelated new job `newjob` added to the manifest, deployed over a
current deployment that has no counterpart for the job. -/
def oJobEx : DeploymentOptions :=
  { oEx with updateOnly := some ["web"],
             currentDeployment := some curWebEx,
             services := [("web", cfgWebTplEx)],
             jobs := [("newjob", cfgJobEx)] }

/-- Desired service task A. -/
def tkAEx : TaskItem :=
  { taskId := "A", taskType := "service", taskDefinitionArn := some "arn:A:1",
    serviceName := some "app-A-prod", ecsCluster := some "main",
    ecsRegion := some "us-east-1", schedule := none, runOnDeploy := none }

/-- Desired service task B. -/
def tkBEx : TaskItem :=
  { taskId := "B", taskType := "service", taskDefinitionArn := some "arn:B:1",
    serviceName := some "app-B-prod", ecsCluster := some "main",
    ecsRegion := some "us-east-1", schedule := none, runOnDeploy := none }

/-- ECS world in which every service exists and reports ACTIVE, and the
remote update of service A fails. -/
def wFailEx : DeploymentTasks.EcsWorld :=
  { describeRes := fun _ => .ok (some "ACTIVE"),
    updateRes := fun st => if st.taskId == "A" then some "boom" else none,
    createRes := fun _ => none,
    scaleToZeroRes := fun _ => none,
    deleteRes := fun _ => none }

/-- ECS world in which every call succeeds and existing services report
ACTIVE. -/
def wOkEx : DeploymentTasks.EcsWorld :=
  { describeRes := fun _ => .ok (some "ACTIVE"),
    updateRes := fun _ => none,
    createRes := fun _ => none,
    scaleToZeroRes := fun _ => none,
    deleteRes := fun _ => none }

/-- Options with two desired services A and B. -/
def oTwoSvcEx : DeploymentOptions :=
  { oEx with serviceTasks := [tkAEx, tkBEx] }

/-- Options desiring only service A over a current deployment that also
contains service B: B is an orphan to tear down. -/
def oOrphanEx : DeploymentOptions :=
  { oEx with serviceTasks := [tkAEx], currentDeployment := some curEx }

/-- An active deployment whose configuration snapshot still embeds a
previous record (nested snapshot). -/
def pNestedEx : DeploymentRecord :=
  .mk "app" "prod" 1 1 [] none 0 [] (some dEx)

/-- The previously active deployment (rollback target), inactive, with
one service task. -/
def parREx : DeploymentRecord :=
  .mk "app" "prod" 1 0 [tkAEx] none 0 [] none

/-- The currently active deployment whose parent is `parREx`. -/
def curREx : DeploymentRecord :=
  .mk "app" "prod" 2 1 [tkAEx] (some ⟨"app", 1⟩) 0 [] none

/-- A store holding the active current deployment and its parent. -/
def t9Ex : Table := [curREx, parREx]

/-! End of definitions; theorems follow. -/

@[simp] theorem DeploymentRecord.appName_mk (a e : String) (ts ac : Nat)
    (tk : List TaskItem) (p : Option DKey) (it : Nat)
    (sv : List (String × TaskConfig)) (c : Option DeploymentRecord) :
    (DeploymentRecord.mk a e ts ac tk p it sv c).appName = a := rfl

@[simp] theorem DeploymentRecord.environment_mk (a e : String) (ts ac : Nat)
    (tk : List TaskItem) (p : Option DKey) (it : Nat)
    (sv : List (String × TaskConfig)) (c : Option DeploymentRecord) :
    (DeploymentRecord.mk a e ts ac tk p it sv c).environment = e := rfl

@[simp] theorem DeploymentRecord.deploymentTimestamp_mk (a e : String)
    (ts ac : Nat) (tk : List TaskItem) (p : Option DKey) (it : Nat)
    (sv : List (String × TaskConfig)) (c : Option DeploymentRecord) :
    (DeploymentRecord.mk a e ts ac tk p it sv c).deploymentTimestamp = ts := rfl

@[simp] theorem DeploymentRecord.active_mk (a e : String) (ts ac : Nat)
    (tk : List TaskItem) (p : Option DKey) (it : Nat)
    (sv : List (String × TaskConfig)) (c : Option DeploymentRecord) :
    (DeploymentRecord.mk a e ts ac tk p it sv c).active = ac := rfl

@[simp] theorem DeploymentRecord.tasks_mk (a e : String) (ts ac : Nat)
    (tk : List TaskItem) (p : Option DKey) (it : Nat)
    (sv : List (String × TaskConfig)) (c : Option DeploymentRecord) :
    (DeploymentRecord.mk a e ts ac tk p it sv c).tasks = tk := rfl

@[simp] theorem DeploymentRecord.parentDeployment_mk (a e : String)
    (ts ac : Nat) (tk : List TaskItem) (p : Option DKey) (it : Nat)
    (sv : List (String × TaskConfig)) (c : Option DeploymentRecord) :
    (DeploymentRecord.mk a e ts ac tk p it sv c).parentDeployment = p := rfl

@[simp] theorem DeploymentRecord.infoTimestamp_mk (a e : String) (ts ac : Nat)
    (tk : List TaskItem) (p : Option DKey) (it : Nat)
    (sv : List (String × TaskConfig)) (c : Option DeploymentRecord) :
    (DeploymentRecord.mk a e ts ac tk p it sv c).infoTimestamp = it := rfl

@[simp] theorem DeploymentRecord.infoServices_mk (a e : String) (ts ac : Nat)
    (tk : List TaskItem) (p : Option DKey) (it : Nat)
    (sv : List (String × TaskConfig)) (c : Option DeploymentRecord) :
    (DeploymentRecord.mk a e ts ac tk p it sv c).infoServices = sv := rfl

@[simp] theorem DeploymentRecord.infoCurrentDeployment_mk (a e : String)
    (ts ac : Nat) (tk : List TaskItem) (p : Option DKey) (it : Nat)
    (sv : List (String × TaskConfig)) (c : Option DeploymentRecord) :
    (DeploymentRecord.mk a e ts ac tk p it sv c).infoCurrentDeployment = c := rfl

@[simp] theorem keyOf_setActiveAttr (r : DeploymentRecord) (a : Nat) :
    keyOf (setActiveAttr r a) = keyOf r := by
  cases r; rfl

@[simp] theorem active_setActiveAttr (r : DeploymentRecord) (a : Nat) :
    (setActiveAttr r a).active = a := by
  cases r; rfl

@[simp] theorem appName_setActiveAttr (r : DeploymentRecord) (a : Nat) :
    (setActiveAttr r a).appName = r.appName := by
  cases r; rfl

@[simp] theorem environment_setActiveAttr (r : DeploymentRecord) (a : Nat) :
    (setActiveAttr r a).environment = r.environment := by
  cases r; rfl

@[simp] theorem appName_setTsAndActive (r : DeploymentRecord) (ts a : Nat) :
    (setTsAndActive r ts a).appName = r.appName := by
  cases r; rfl

@[simp] theorem environment_setTsAndActive (r : DeploymentRecord) (ts a : Nat) :
    (setTsAndActive r ts a).environment = r.environment := by
  cases r; rfl

@[simp] theorem active_setTsAndActive (r : DeploymentRecord) (ts a : Nat) :
    (setTsAndActive r ts a).active = a := by
  cases r; rfl

@[simp] theorem deploymentTimestamp_setTsAndActive (r : DeploymentRecord)
    (ts a : Nat) : (setTsAndActive r ts a).deploymentTimestamp = ts := by
  cases r; rfl

@[simp] theorem tasks_setTsAndActive (r : DeploymentRecord) (ts a : Nat) :
    (setTsAndActive r ts a).tasks = r.tasks := by
  cases r; rfl

theorem mem_eq_of_filter_eq_singleton {l : List DeploymentRecord}
    {p : DeploymentRecord} {pred : DeploymentRecord → Bool}
    (h : l.filter pred = [p]) :
    ∀ r ∈ l, pred r = true → r = p := by
  intro r hr hpred
  have hmem : r ∈ l.filter pred := List.mem_filter.mpr ⟨hr, hpred⟩
  rw [h] at hmem
  simpa using hmem

theorem mem_dynamoPut {u : Table} {item r : DeploymentRecord}
    (h : r ∈ DeploymentCenter.dynamoPut u item) : r = item ∨ r ∈ u := by
  unfold DeploymentCenter.dynamoPut at h
  split at h
  · rcases List.mem_map.mp h with ⟨r0, hr0, hh⟩
    by_cases hk : (keyOf r0 == keyOf item) = true
    · rw [if_pos hk] at hh
      exact Or.inl hh.symm
    · rw [if_neg hk] at hh
      exact Or.inr (hh ▸ hr0)
  · rcases List.mem_append.mp h with h1 | h1
    · exact Or.inr h1
    · exact Or.inl (by simpa using h1)

theorem keysUnique_map_keyPreserving {t : Table}
    {f : DeploymentRecord → DeploymentRecord}
    (hf : ∀ r, keyOf (f r) = keyOf r) (h : keysUnique t) :
    keysUnique (t.map f) := by
  unfold keysUnique at *
  exact List.Pairwise.map f (fun a b hab => by rw [hf, hf]; exact hab) h

theorem filter_map_replace {u : Table} {item : DeploymentRecord}
    {pred : DeploymentRecord → Bool}
    (hall : ∀ r ∈ u, pred r = false) (huniq : keysUnique u)
    (hany : u.any (fun r => keyOf r == keyOf item) = true)
    (hitem : pred item = true) :
    (u.map (fun r => if keyOf r == keyOf item then item else r)).filter pred
      = [item] := by
  induction u with
  | nil => simp at hany
  | cons x xs ih =>
    rcases List.pairwise_cons.mp huniq with ⟨hx, htail⟩
    by_cases hk : (keyOf x == keyOf item) = true
    · have hkeq : keyOf x = keyOf item := by simpa using hk
      have hxs_id :
          xs.map (fun r => if keyOf r == keyOf item then item else r) = xs := by
        have hcongr :
            ∀ y ∈ xs,
              (if keyOf y == keyOf item then item else y) = y := by
          intro y hy
          have hne : keyOf y ≠ keyOf item := fun hEq => hx y hy (hkeq ▸ hEq.symm ▸ rfl)
          simp [hne]
        calc xs.map (fun r => if keyOf r == keyOf item then item else r)
            = xs.map id := List.map_congr_left hcongr
          _ = xs := List.map_id xs
      have hfilter_xs : xs.filter pred = [] := by
        rw [List.filter_eq_nil_iff]
        intro a ha
        simp [hall a (List.mem_cons_of_mem x ha)]
      simp only [List.map_cons, if_pos hk, hxs_id]
      rw [List.filter_cons_of_pos hitem, hfilter_xs]
    · have hpx : pred x = false := hall x (List.mem_cons_self x xs)
      have hany' : xs.any (fun r => keyOf r == keyOf item) = true := by
        simpa [hk] using hany
      simp only [List.map_cons, if_neg hk]
      rw [List.filter_cons_of_neg (by simp [hpx])]
      exact ih (fun r hr => hall r (List.mem_cons_of_mem x hr)) htail hany'

/-- C1: after History Store finalize for app X and environment Y with a
pre-existing active deployment (the parent of the new record), the
active-deployment query for (X, Y) returns exactly one record, the newly
finalized one: the parent record is left with active = 0 and the new
record is written with active = 1. -/
theorem finalize_exactly_one_active (t : Table) (p d : DeploymentRecord)
    (X Y : String)
    (huniq : keysUnique t)
    (hq : DeploymentCenter.getActiveDeployments t X Y = [p])
    (hpar : d.parentDeployment = some (keyOf p))
    (happ : d.appName = X) (henv : d.environment = Y)
    (hts : p.deploymentTimestamp ≠ d.infoTimestamp) :
    ∃ t1 final,
      DeploymentCenter.finalizeDeployment true true t d = .ok (t1, final) ∧
      final = setTsAndActive d d.infoTimestamp 1 ∧
      final.active = 1 ∧
      DeploymentCenter.getActiveDeployments t1 X Y = [final] ∧
      ∀ r ∈ t1, keyOf r = keyOf p → r.active = 0 := by
  have hpmem : p ∈ t ∧ DeploymentCenter.activeQueryPred X Y p = true := by
    have hp : p ∈ DeploymentCenter.getActiveDeployments t X Y := by
      rw [hq]; simp
    exact List.mem_filter.mp hp
  set final := setTsAndActive d d.infoTimestamp 1 with hfinal
  have hany : t.any (fun r => keyOf r == keyOf p) = true :=
    List.any_eq_true.mpr ⟨p, hpmem.1, by simp⟩
  set g := fun r => if keyOf r == keyOf p then setActiveAttr r 0 else r with hg
  have hu : DeploymentCenter.dynamoUpdateActive t (keyOf p) 0 = t.map g := by
    unfold DeploymentCenter.dynamoUpdateActive
    rw [if_pos hany]
  have hrun : DeploymentCenter.finalizeDeployment true true t d =
      .ok (DeploymentCenter.dynamoPut (t.map g) final, final) := by
    simp only [DeploymentCenter.finalizeDeployment,
      DeploymentCenter.setActiveStatusForDeployment, hpar, if_pos, if_true]
    rw [show ((if (false : Bool) then 1 else 0) : Nat) = 0 from rfl, hu]
  have hkeyg : ∀ r, keyOf (g r) = keyOf r := by
    intro r
    by_cases hk : keyOf r = keyOf p <;> simp [hg, hk]
  have huuniq : keysUnique (t.map g) := keysUnique_map_keyPreserving hkeyg huniq
  have hall : ∀ r ∈ t.map g, DeploymentCenter.activeQueryPred X Y r = false := by
    intro r hr
    rcases List.mem_map.mp hr with ⟨r0, hr0, rfl⟩
    by_cases hk : keyOf r0 = keyOf p
    · simp [hg, hk, DeploymentCenter.activeQueryPred]
    · simp only [hg, beq_iff_eq, if_neg hk]
      by_contra hcon
      have hpred : DeploymentCenter.activeQueryPred X Y r0 = true := by
        cases h' : DeploymentCenter.activeQueryPred X Y r0
        · exact absurd h' hcon
        · rfl
      have heqp := mem_eq_of_filter_eq_singleton hq r0 hr0 hpred
      subst heqp
      exact hk rfl
  have hfkey : keyOf final ≠ keyOf p := by
    intro hEq
    apply hts
    have hts' : (keyOf p).deploymentTimestamp = (keyOf final).deploymentTimestamp := by
      rw [hEq]
    simpa [keyOf, hfinal] using hts'
  have hitem : DeploymentCenter.activeQueryPred X Y final = true := by
    simp [DeploymentCenter.activeQueryPred, hfinal, happ, henv]
  have hfilter :
      DeploymentCenter.getActiveDeployments
        (DeploymentCenter.dynamoPut (t.map g) final) X Y = [final] := by
    unfold DeploymentCenter.getActiveDeployments DeploymentCenter.dynamoPut
    split
    case isTrue h => exact filter_map_replace hall huuniq h hitem
    case isFalse h =>
      rw [List.filter_append,
        List.filter_eq_nil_iff.mpr (fun a ha => by simp [hall a ha])]
      simp [hitem]
  have hu0 : ∀ r ∈ t.map g, keyOf r = keyOf p → r.active = 0 := by
    intro r hr hkey
    rcases List.mem_map.mp hr with ⟨r0, hr0, rfl⟩
    by_cases hk : keyOf r0 = keyOf p
    · simp [hg, hk]
    · exfalso
      apply hk
      simp only [hg, beq_iff_eq, if_neg hk] at hkey
      exact hkey
  have hdeact :
      ∀ r ∈ DeploymentCenter.dynamoPut (t.map g) final,
        keyOf r = keyOf p → r.active = 0 := by
    intro r hr hkey
    rcases mem_dynamoPut hr with rfl | hru
    · exact absurd hkey hfkey
    · exact hu0 r hru hkey
  exact ⟨_, _, hrun, hfinal, by simp [hfinal], hfilter, hdeact⟩

/-- Witness for the C1 theorem: a store holding one active deployment of
(app, prod) and a new deployment whose parent it is. -/
theorem finalize_exactly_one_active_witness :
    ∃ t1 final,
      DeploymentCenter.finalizeDeployment true true [pEx] dEx = .ok (t1, final) ∧
      final = setTsAndActive dEx dEx.infoTimestamp 1 ∧
      final.active = 1 ∧
      DeploymentCenter.getActiveDeployments t1 "app" "prod" = [final] ∧
      ∀ r ∈ t1, keyOf r = keyOf pEx → r.active = 0 :=
  finalize_exactly_one_active [pEx] pEx dEx "app" "prod"
    (by simp [keysUnique])
    (by rfl)
    (by rfl) (by rfl) (by rfl)
    (by decide)

/-- C2 counterexample: with a parent set and the parent-deactivation
call failing, History Store finalize rejects and never writes the new
record, refuting the claim that the new record is written with
active = 1 regardless of the parent-deactivation outcome. -/
theorem finalize_parent_failure_blocks_put :
    DeploymentCenter.finalizeDeployment false true [pEx] dEx
      = .error "update failed" := by
  rfl

/-- C2 amended: when `parentDeployment` is set and the deactivation of
the parent fails, the History Store finalize rejects with that failure
and the new deployment record is not written: the two-step commit is
fail-fast, not best-effort. -/
theorem finalize_parent_failure_rejects (t : Table) (d : DeploymentRecord)
    (putOk : Bool) (k : DKey) (hpar : d.parentDeployment = some k) :
    DeploymentCenter.finalizeDeployment false putOk t d
      = .error "update failed" := by
  simp [DeploymentCenter.finalizeDeployment,
    DeploymentCenter.setActiveStatusForDeployment, hpar]

/-- Witness for the amended C2 theorem. -/
theorem finalize_parent_failure_rejects_witness :
    DeploymentCenter.finalizeDeployment false false [pEx] dEx
      = .error "update failed" :=
  finalize_parent_failure_rejects [pEx] dEx false ⟨"app", 1⟩ (by rfl)

/-- C7: every DeployableTaskItem in the Deployment record assembled by
the finalize stage carries a truthy (non-empty) taskDefinitionArn:
service and job entries without a resolved ARN are excluded by
`buildDeployableTaskItems` before finalization concatenates
serviceTasks and jobTasks. -/
theorem finalized_tasks_have_arn (o : DeploymentOptions) :
    ∀ tk ∈ (DeploymentTasks.assembleDeployment
        (DeploymentTasks.buildDeployableTaskItems o)).tasks,
      DeploymentTasks.truthyStr tk.taskDefinitionArn = true := by
  intro tk htk
  simp only [DeploymentTasks.assembleDeployment,
    DeploymentTasks.buildDeployableTaskItems,
    DeploymentRecord.tasks_mk] at htk
  rcases List.mem_append.mp htk with h | h
  · rcases List.mem_map.mp h with ⟨sc, hsc, rfl⟩
    simpa using (List.mem_filter.mp hsc).2
  · rcases List.mem_map.mp h with ⟨jc, hjc, rfl⟩
    simpa using (List.mem_filter.mp hjc).2

/-- Witness for the C7 theorem at a concrete configuration. -/
theorem finalized_tasks_have_arn_witness :
    DeploymentTasks.truthyStr tkWebEx.taskDefinitionArn = true :=
  finalized_tasks_have_arn oEx tkWebEx (by decide)

/-- C8: `runOnDeployJobs` issues all before-phase job triggers, then the
stability waits, then all after-phase job triggers, in that order, for
every outcome oracle (individual trigger or wait failures are settled,
never raised: the stage always completes and passes the record
through). -/
theorem runOnDeployJobs_phase_order (runRes : TaskItem → Option String)
    (waitRes : Option String → List (Option String) → Option String)
    (results : DeploymentRecord) :
    ∃ bc wc ac,
      DeploymentTasks.runOnDeployJobs runRes waitRes results
        = (bc ++ wc ++ ac, results) ∧
      bc = (DeploymentTasks.jobsInPhase results.tasks "before").map
        (fun tk => .runTaskCall tk.taskId tk.taskDefinitionArn (runRes tk)) ∧
      (∀ c ∈ wc, c.isWait = true) ∧
      ac = (DeploymentTasks.jobsInPhase results.tasks "after").map
        (fun tk => .runTaskCall tk.taskId tk.taskDefinitionArn (runRes tk)) := by
  refine ⟨_, _, _, rfl, rfl, ?_, rfl⟩
  intro c hc
  simp only [DeploymentTasks.serviceWaitCalls, List.mem_flatMap,
    List.mem_map] at hc
  rcases hc with ⟨k, hk, ch, hch, rfl⟩
  rfl

theorem registerTaskDefinition_ok
    {reg : DeploymentTasks.TaskDefPayload → Except String String}
    {n : String} {p : DeploymentTasks.TaskDefPayload} {a : String}
    (h : DeploymentTasks.registerTaskDefinition reg n p = .ok a) :
    reg p = .ok a := by
  unfold DeploymentTasks.registerTaskDefinition at h
  cases hr : reg p with
  | ok x =>
    rw [hr] at h
    injection h with h
    rw [h]
  | error e =>
    rw [hr] at h
    exact absurd h (by simp)

theorem createTaskDefinitions_log_shouldUpdate
    (reg : DeploymentTasks.TaskDefPayload → Except String String)
    (o : DeploymentOptions) :
    ∀ (ts ts1 : List (String × TaskConfig)) (log : List String),
      DeploymentTasks.createTaskDefinitions reg o ts = .ok (ts1, log) →
      ∀ x ∈ log, DeploymentTasks.shouldUpdate o.updateOnly x = true := by
  intro ts
  induction ts with
  | nil =>
    intro ts1 log h x hx
    simp only [DeploymentTasks.createTaskDefinitions, Except.ok.injEq,
      Prod.mk.injEq] at h
    obtain ⟨rfl, rfl⟩ := h
    simp at hx
  | cons entry rest ih =>
    intro ts1 log h x hx
    obtain ⟨taskId, cfg⟩ := entry
    simp only [DeploymentTasks.createTaskDefinitions] at h
    split at h
    case isTrue hsu =>
      split at h
      · exact absurd h (by simp)
      · split at h
        · exact absurd h (by simp)
        · split at h
          · exact absurd h (by simp)
          case _ arn _ rest1 log0 hrec =>
            simp only [Except.ok.injEq, Prod.mk.injEq] at h
            obtain ⟨rfl, rfl⟩ := h
            rcases List.mem_cons.mp hx with rfl | hx0
            · exact hsu
            · exact ih rest1 log0 hrec x hx0
    case isFalse hsu =>
      split at h
      · exact absurd h (by simp)
      case _ rest1 log0 hrec =>
        simp only [Except.ok.injEq, Prod.mk.injEq] at h
        obtain ⟨rfl, rfl⟩ := h
        exact ih rest1 log0 hrec x hx

theorem createTaskDefinitions_entry
    (reg : DeploymentTasks.TaskDefPayload → Except String String)
    (o : DeploymentOptions) :
    ∀ (ts ts1 : List (String × TaskConfig)) (log : List String)
      (B : String) (cfgB : TaskConfig),
      DeploymentTasks.createTaskDefinitions reg o ts = .ok (ts1, log) →
      lookupCfg ts B = some cfgB →
      (DeploymentTasks.shouldUpdate o.updateOnly B = false →
        lookupCfg ts1 B = some { cfgB with taskDefinitionArn :=
          DeploymentTasks.lookupArnInCurrent o.currentDeployment B }) ∧
      (DeploymentTasks.shouldUpdate o.updateOnly B = true →
        ∃ tpl arn, cfgB.taskTemplate = some tpl ∧
          reg (DeploymentTasks.createTaskDefinition tpl B o) = .ok arn ∧
          lookupCfg ts1 B = some { cfgB with taskDefinitionArn := some arn } ∧
          B ∈ log) := by
  intro ts
  induction ts with
  | nil =>
    intro ts1 log B cfgB h hB
    simp [lookupCfg] at hB
  | cons entry rest ih =>
    intro ts1 log B cfgB h hB
    obtain ⟨taskId, cfg⟩ := entry
    simp only [DeploymentTasks.createTaskDefinitions] at h
    split at h
    case isTrue hsu =>
      split at h
      · exact absurd h (by simp)
      case _ tpl htpl =>
        split at h
        · exact absurd h (by simp)
        case _ arn hreg =>
          split at h
          · exact absurd h (by simp)
          case _ rest1 log0 hrec =>
            simp only [Except.ok.injEq, Prod.mk.injEq] at h
            obtain ⟨rfl, rfl⟩ := h
            by_cases hid : taskId = B
            · subst hid
              have hBc : cfg = cfgB := by simpa [lookupCfg] using hB
              subst hBc
              constructor
              · intro hfalse
                rw [hsu] at hfalse
                exact absurd hfalse (by simp)
              · intro _
                refine ⟨tpl, arn, htpl, registerTaskDefinition_ok hreg,
                  ?_, List.mem_cons_self _ _⟩
                simp [lookupCfg]
            · have hB0 : lookupCfg rest B = some cfgB := by
                simpa [lookupCfg, hid] using hB
              have IH := ih rest1 log0 B cfgB hrec hB0
              constructor
              · intro hfalse
                have h1 := IH.1 hfalse
                simpa [lookupCfg, hid] using h1
              · intro htrue
                obtain ⟨tpl2, arn2, h1, h2, h3, h4⟩ := IH.2 htrue
                exact ⟨tpl2, arn2, h1, h2, by simpa [lookupCfg, hid] using h3,
                  List.mem_cons_of_mem _ h4⟩
    case isFalse hsu =>
      split at h
      · exact absurd h (by simp)
      case _ rest1 log0 hrec =>
        simp only [Except.ok.injEq, Prod.mk.injEq] at h
        obtain ⟨rfl, rfl⟩ := h
        by_cases hid : taskId = B
        · subst hid
          have hBc : cfg = cfgB := by simpa [lookupCfg] using hB
          subst hBc
          constructor
          · intro _
            simp [lookupCfg]
          · intro htrue
            exact absurd htrue hsu
        · have hB0 : lookupCfg rest B = some cfgB := by
            simpa [lookupCfg, hid] using hB
          have IH := ih rest1 log0 B cfgB hrec hB0
          constructor
          · intro hfalse
            have h1 := IH.1 hfalse
            simpa [lookupCfg, hid] using h1
          · intro htrue
            obtain ⟨tpl2, arn2, h1, h2, h3, h4⟩ := IH.2 htrue
            exact ⟨tpl2, arn2, h1, h2, by simpa [lookupCfg, hid] using h3, h4⟩

/-- C5: selective update. When `updateOnly` excludes task id B, no task
definition is registered for B (B is absent from the registration log)
and B's entry reuses, unchanged, the taskDefinitionArn of the matching
task (by taskId) in the current deployment; when B is listed in
`updateOnly`, or `updateOnly` is unset, a new task definition is
registered for B and the ARN returned by the Cluster API is captured on
B's entry. -/
theorem updateOnly_selectivity
    (reg : DeploymentTasks.TaskDefPayload → Except String String)
    (o : DeploymentOptions) (ts ts1 : List (String × TaskConfig))
    (log : List String) (B : String) (cfgB : TaskConfig)
    (h : DeploymentTasks.createTaskDefinitions reg o ts = .ok (ts1, log))
    (hB : lookupCfg ts B = some cfgB) :
    (DeploymentTasks.shouldUpdate o.updateOnly B = false →
      lookupCfg ts1 B = some { cfgB with taskDefinitionArn :=
        DeploymentTasks.lookupArnInCurrent o.currentDeployment B } ∧
      B ∉ log) ∧
    (DeploymentTasks.shouldUpdate o.updateOnly B = true →
      ∃ tpl arn, cfgB.taskTemplate = some tpl ∧
        reg (DeploymentTasks.createTaskDefinition tpl B o) = .ok arn ∧
        lookupCfg ts1 B = some { cfgB with taskDefinitionArn := some arn } ∧
        B ∈ log) := by
  have hmain := createTaskDefinitions_entry reg o ts ts1 log B cfgB h hB
  refine ⟨fun hfalse => ⟨hmain.1 hfalse, fun hmem => ?_⟩, hmain.2⟩
  have hsu := createTaskDefinitions_log_shouldUpdate reg o ts ts1 log h B hmem
  rw [hsu] at hfalse
  exact absurd hfalse (by simp)

/-- Witness for the C5 theorem: `updateOnly = [A]`, a current deployment
holding the ARN of B; A is freshly registered, B reuses its ARN. -/
theorem updateOnly_selectivity_witness :
    (DeploymentTasks.shouldUpdate oSelEx.updateOnly "B" = false →
      lookupCfg
        [("A", { cfgAEx with taskDefinitionArn := some "arn:new:app-A-prod" }),
         ("B", { cfgBEx with taskDefinitionArn := some "arn:B:7" })] "B"
        = some { cfgBEx with taskDefinitionArn :=
            DeploymentTasks.lookupArnInCurrent oSelEx.currentDeployment "B" } ∧
      "B" ∉ ["A"]) ∧
    (DeploymentTasks.shouldUpdate oSelEx.updateOnly "B" = true →
      ∃ tpl arn, cfgBEx.taskTemplate = some tpl ∧
        regEx (DeploymentTasks.createTaskDefinition tpl "B" oSelEx) = .ok arn ∧
        lookupCfg
          [("A", { cfgAEx with taskDefinitionArn := some "arn:new:app-A-prod" }),
           ("B", { cfgBEx with taskDefinitionArn := some "arn:B:7" })] "B"
          = some { cfgBEx with taskDefinitionArn := some arn } ∧
        "B" ∈ ["A"]) :=
  updateOnly_selectivity regEx oSelEx oSelEx.services
    [("A", { cfgAEx with taskDefinitionArn := some "arn:new:app-A-prod" }),
     ("B", { cfgBEx with taskDefinitionArn := some "arn:B:7" })]
    ["A"] "B" cfgBEx (by rfl) (by rfl)

/-- C6 counterexample: `updateOnly = [web]` and an unrelated new job
`newjob` with no counterpart in the current deployment: the stage leaves
the job entry with no taskDefinitionArn and registers nothing for it
(the log holds only `web`), refuting the claim that its task definition
is freshly registered. -/
theorem updateOnly_new_job_cex :
    ∃ o1 log,
      DeploymentTasks.updateTaskDefinitions regEx oJobEx = .ok (o1, log) ∧
      lookupCfg o1.jobs "newjob"
        = some { cfgJobEx with taskDefinitionArn := none } ∧
      "newjob" ∉ log :=
  ⟨_, _, rfl, rfl, by decide⟩

/-- C6 amended: a job whose id is not listed in `updateOnly` and which
has no counterpart task (matching taskId) in the current deployment is
left without a task-definition ARN: nothing is registered for it and its
entry carries no ARN (so it is subsequently excluded by
`buildDeployableTaskItems`). -/
theorem updateOnly_new_job_no_arn
    (reg : DeploymentTasks.TaskDefPayload → Except String String)
    (o : DeploymentOptions) (ts ts1 : List (String × TaskConfig))
    (log : List String) (J : String) (cfgJ : TaskConfig)
    (h : DeploymentTasks.createTaskDefinitions reg o ts = .ok (ts1, log))
    (hJ : lookupCfg ts J = some cfgJ)
    (hnot : DeploymentTasks.shouldUpdate o.updateOnly J = false)
    (hnone : DeploymentTasks.lookupArnInCurrent o.currentDeployment J = none) :
    lookupCfg ts1 J = some { cfgJ with taskDefinitionArn := none } ∧
    J ∉ log := by
  have hmain := createTaskDefinitions_entry reg o ts ts1 log J cfgJ h hJ
  refine ⟨?_, fun hmem => ?_⟩
  · have h1 := hmain.1 hnot
    rw [hnone] at h1
    exact h1
  · have hsu := createTaskDefinitions_log_shouldUpdate reg o ts ts1 log h J hmem
    rw [hsu] at hnot
    exact absurd hnot (by simp)

/-- Witness for the amended C6 theorem on the job dictionary of the
concrete second deploy. -/
theorem updateOnly_new_job_no_arn_witness :
    lookupCfg [("newjob", { cfgJobEx with taskDefinitionArn := none })] "newjob"
      = some { cfgJobEx with taskDefinitionArn := none } ∧
    "newjob" ∉ ([] : List String) :=
  updateOnly_new_job_no_arn regEx oJobEx oJobEx.jobs
    [("newjob", { cfgJobEx with taskDefinitionArn := none })] [] "newjob"
    cfgJobEx (by rfl) (by rfl) (by rfl) (by rfl)

theorem processDesired_fail (w : DeploymentTasks.EcsWorld)
    (cfgs : List (String × TaskConfig)) (st : TaskItem) (e : String) :
    ∀ (done rest : List TaskItem),
      (∀ x ∈ done, (DeploymentTasks.updateOneService w cfgs x).2 = none) →
      (DeploymentTasks.updateOneService w cfgs st).2 = some e →
      DeploymentTasks.processDesiredServices w cfgs (done ++ st :: rest)
        = ((done.flatMap fun x => (DeploymentTasks.updateOneService w cfgs x).1)
            ++ (DeploymentTasks.updateOneService w cfgs st).1, some e) := by
  intro done
  induction done with
  | nil =>
    intro rest hok hfail
    rcases hlog : DeploymentTasks.updateOneService w cfgs st with ⟨log, err⟩
    rw [hlog] at hfail
    simp only at hfail
    subst hfail
    simp only [List.nil_append, List.flatMap_nil,
      DeploymentTasks.processDesiredServices, hlog]
  | cons y ys ih =>
    intro rest hok hfail
    have hy : (DeploymentTasks.updateOneService w cfgs y).2 = none :=
      hok y (List.mem_cons_self y ys)
    rcases hly : DeploymentTasks.updateOneService w cfgs y with ⟨ly, erry⟩
    rw [hly] at hy
    simp only at hy
    subst hy
    simp only [List.cons_append, DeploymentTasks.processDesiredServices, hly]
    simp only [List.append_eq]
    rw [ih rest (fun x hx => hok x (List.mem_cons_of_mem y hx)) hfail]
    simp [List.flatMap_cons, List.append_assoc, hly]

/-- C3 counterexample: with desired services A then B, an ACTIVE cluster
and the remote update of A failing, the stage stops before B (no issued
call names the B service), rejects with the wrapped error, and the
deploy chain never reaches finalization, refuting per-service isolation
of failures. -/
theorem service_failure_fail_fast_cex :
    (DeploymentTasks.updateServices wFailEx oTwoSvcEx).2
      = .error (DeploymentTasks.wrapServiceError "A" "boom") ∧
    (∀ c ∈ (DeploymentTasks.updateServices wFailEx oTwoSvcEx).1,
      c.callServiceName ≠ some "app-B-prod") ∧
    (DeploymentTasks.reconcileAndFinalize wFailEx true true [] oTwoSvcEx).2
      = .error (DeploymentTasks.wrapServiceError "A" "boom") := by
  refine ⟨rfl, ?_, rfl⟩
  decide

/-- C3 amended: a failure while creating or updating one desired service
aborts the stage fail-fast: no calls are issued for the remaining
desired services or for the orphan teardown (the call log ends with the
failing service's calls), the stage rejects with the wrapped per-service
error, and the deploy chain never reaches finalization, leaving the
History Store untouched. -/
theorem service_failure_fail_fast (w : DeploymentTasks.EcsWorld)
    (o : DeploymentOptions) (done rest : List TaskItem) (st : TaskItem)
    (e : String)
    (hst : o.serviceTasks = done ++ st :: rest)
    (hok : ∀ x ∈ done, (DeploymentTasks.updateOneService w o.services x).2 = none)
    (hfail : (DeploymentTasks.updateOneService w o.services st).2 = some e) :
    DeploymentTasks.updateServices w o
      = ((done.flatMap fun x => (DeploymentTasks.updateOneService w o.services x).1)
          ++ (DeploymentTasks.updateOneService w o.services st).1, .error e) ∧
    ∀ (t : Table) (updateOk putOk : Bool),
      (DeploymentTasks.reconcileAndFinalize w updateOk putOk t o).2
        = .error e := by
  have hpd := processDesired_fail w o.services st e done rest hok hfail
  have h1 : DeploymentTasks.updateServices w o
      = ((done.flatMap fun x => (DeploymentTasks.updateOneService w o.services x).1)
          ++ (DeploymentTasks.updateOneService w o.services st).1, .error e) := by
    unfold DeploymentTasks.updateServices
    rw [hst, hpd]
  refine ⟨h1, fun t updateOk putOk => ?_⟩
  unfold DeploymentTasks.reconcileAndFinalize
  rw [h1]

/-- Witness for the amended C3 theorem: the failure on the first desired
service leaves the second unprocessed. -/
theorem service_failure_fail_fast_witness :
    DeploymentTasks.updateServices wFailEx oTwoSvcEx
      = ((([] : List TaskItem).flatMap
            fun x => (DeploymentTasks.updateOneService wFailEx oTwoSvcEx.services x).1)
          ++ (DeploymentTasks.updateOneService wFailEx oTwoSvcEx.services tkAEx).1,
         .error (DeploymentTasks.wrapServiceError "A" "boom")) ∧
    ∀ (t : Table) (updateOk putOk : Bool),
      (DeploymentTasks.reconcileAndFinalize wFailEx updateOk putOk t oTwoSvcEx).2
        = .error (DeploymentTasks.wrapServiceError "A" "boom") :=
  service_failure_fail_fast wFailEx oTwoSvcEx [] [tkBEx] tkAEx
    (DeploymentTasks.wrapServiceError "A" "boom")
    (by rfl) (by intro x hx; simp at hx) (by rfl)

theorem updateOneService_calls_name (w : DeploymentTasks.EcsWorld)
    (cfgs : List (String × TaskConfig)) (st : TaskItem) :
    ∀ c ∈ (DeploymentTasks.updateOneService w cfgs st).1,
      c.callServiceName = st.serviceName := by
  intro c hc
  unfold DeploymentTasks.updateOneService at hc
  cases hd : w.describeRes st with
  | error e =>
    simp only [hd] at hc
    simp at hc
    subst hc
    rfl
  | ok status =>
    simp only [hd] at hc
    by_cases hact : (status == some "ACTIVE") = true
    · rw [if_pos hact] at hc
      cases hu : w.updateRes st <;>
      · simp only [hu] at hc
        simp at hc
        rcases hc with rfl | rfl <;> rfl
    · rw [if_neg hact] at hc
      cases hl : cfgs.lookup st.taskId with
      | none =>
        simp only [hl] at hc
        simp at hc
        subst hc
        rfl
      | some tpl =>
        simp only [hl] at hc
        cases hcr : w.createRes st <;>
        · simp only [hcr] at hc
          simp at hc
          rcases hc with rfl | rfl <;> rfl

theorem processDesired_calls_from (w : DeploymentTasks.EcsWorld)
    (cfgs : List (String × TaskConfig)) :
    ∀ l, ∀ c ∈ (DeploymentTasks.processDesiredServices w cfgs l).1,
      ∃ st ∈ l, c.callServiceName = st.serviceName := by
  intro l
  induction l with
  | nil =>
    intro c hc
    simp [DeploymentTasks.processDesiredServices] at hc
  | cons st rest ih =>
    intro c hc
    simp only [DeploymentTasks.processDesiredServices] at hc
    rcases hone : DeploymentTasks.updateOneService w cfgs st with ⟨log, err⟩
    rw [hone] at hc
    cases err with
    | some e =>
      simp only at hc
      exact ⟨st, List.mem_cons_self st rest,
        updateOneService_calls_name w cfgs st c (by rw [hone]; exact hc)⟩
    | none =>
      simp only at hc
      rcases List.mem_append.mp hc with h1 | h2
      · exact ⟨st, List.mem_cons_self st rest,
          updateOneService_calls_name w cfgs st c (by rw [hone]; exact h1)⟩
      · obtain ⟨st2, hst2, hn⟩ := ih c h2
        exact ⟨st2, List.mem_cons_of_mem st hst2, hn⟩

theorem processRemovals_calls_kind (w : DeploymentTasks.EcsWorld) :
    ∀ l, ∀ c ∈ (DeploymentTasks.processRemovals w l).1,
      c.isCreate = false ∧ c.isUpdateArn = false := by
  intro l
  induction l with
  | nil =>
    intro c hc
    simp [DeploymentTasks.processRemovals] at hc
  | cons st rest ih =>
    intro c hc
    simp only [DeploymentTasks.processRemovals] at hc
    have hdel : ∀ c2 ∈ (DeploymentTasks.deleteService w st).1,
        c2.isCreate = false ∧ c2.isUpdateArn = false := by
      intro c2 hc2
      unfold DeploymentTasks.deleteService at hc2
      split at hc2 <;>
      · simp at hc2
        first
          | (subst hc2; exact ⟨rfl, rfl⟩)
          | (rcases hc2 with rfl | rfl <;> exact ⟨rfl, rfl⟩)
    rcases hds : DeploymentTasks.deleteService w st with ⟨log, err⟩
    rw [hds] at hc
    cases err with
    | some e =>
      simp only at hc
      exact hdel c (by rw [hds]; exact hc)
    | none =>
      simp only at hc
      rcases List.mem_append.mp hc with h1 | h2
      · exact hdel c (by rw [hds]; exact h1)
      · exact ih c h2

theorem deleteService_success (w : DeploymentTasks.EcsWorld) (st : TaskItem)
    (h : (DeploymentTasks.deleteService w st).2 = none) :
    (DeploymentTasks.deleteService w st).1
      = [.updateSvcCount st.serviceName st.ecsCluster 0,
         .deleteSvc st.serviceName st.ecsCluster] := by
  unfold DeploymentTasks.deleteService at h ⊢
  cases hs : w.scaleToZeroRes st with
  | some e =>
    rw [hs] at h
    simp at h
  | none =>
    rfl

theorem processRemovals_success_infix (w : DeploymentTasks.EcsWorld) :
    ∀ (l : List TaskItem) (L : List DeploymentTasks.EcsCall),
      DeploymentTasks.processRemovals w l = (L, none) →
      ∀ x ∈ l, (DeploymentTasks.deleteService w x).2 = none ∧
        ∃ pre post, L = pre ++ (DeploymentTasks.deleteService w x).1 ++ post := by
  intro l
  induction l with
  | nil =>
    intro L h x hx
    simp at hx
  | cons y ys ih =>
    intro L h x hx
    simp only [DeploymentTasks.processRemovals] at h
    rcases hdy : DeploymentTasks.deleteService w y with ⟨ly, erry⟩
    rw [hdy] at h
    cases erry with
    | some e => simp only at h; exact absurd h (by simp)
    | none =>
      simp only at h
      rcases hrec : DeploymentTasks.processRemovals w ys with ⟨L2, err2⟩
      rw [hrec] at h
      simp only [Prod.mk.injEq] at h
      obtain ⟨rfl, rfl⟩ := h
      rcases List.mem_cons.mp hx with rfl | hx0
      · exact ⟨by rw [hdy], [], L2, by rw [hdy]; simp⟩
      · obtain ⟨hd2, pre, post, hL2⟩ := ih L2 hrec x hx0
        exact ⟨hd2, ly ++ pre, post, by rw [hL2]; simp [List.append_assoc]⟩

theorem updateServices_ok_parts (w : DeploymentTasks.EcsWorld)
    (o : DeploymentOptions) (log : List DeploymentTasks.EcsCall)
    (o1 : DeploymentOptions)
    (h : DeploymentTasks.updateServices w o = (log, .ok o1)) :
    ∃ log1 log2,
      DeploymentTasks.processDesiredServices w o.services o.serviceTasks
        = (log1, none) ∧
      DeploymentTasks.processRemovals w
        (DeploymentTasks.removedServices o.currentDeployment o.serviceTasks)
        = (log2, none) ∧
      log = log1 ++ log2 := by
  unfold DeploymentTasks.updateServices at h
  rcases h1 : DeploymentTasks.processDesiredServices w o.services o.serviceTasks
    with ⟨log1, err1⟩
  rw [h1] at h
  cases err1 with
  | some e => simp only at h; exact absurd h (by simp)
  | none =>
    simp only at h
    rcases h2 : DeploymentTasks.processRemovals w
        (DeploymentTasks.removedServices o.currentDeployment o.serviceTasks)
      with ⟨log2, err2⟩
    rw [h2] at h
    cases err2 with
    | some e => simp only at h; exact absurd h (by simp)
    | none =>
      simp only [Prod.mk.injEq] at h
      obtain ⟨hlog, _⟩ := h
      exact ⟨log1, log2, rfl, rfl, hlog.symm⟩

/-- C4: orphan service teardown. When the stage succeeds, every service
task B of the current deployment whose taskId is absent from the new
desired service-task set gets a scale-to-zero UpdateService call
immediately followed by a DeleteService call (in that order), and no
CreateService or update-to-new-task-definition call is ever issued for
B's service. -/
theorem orphan_service_teardown (w : DeploymentTasks.EcsWorld)
    (o : DeploymentOptions) (log : List DeploymentTasks.EcsCall)
    (o1 : DeploymentOptions) (B : TaskItem)
    (h : DeploymentTasks.updateServices w o = (log, .ok o1))
    (hB : B ∈ DeploymentTasks.removedServices o.currentDeployment o.serviceTasks)
    (hname : ∀ d ∈ o.serviceTasks, d.serviceName ≠ B.serviceName) :
    (∃ pre post,
      log = pre ++
        ([.updateSvcCount B.serviceName B.ecsCluster 0,
          .deleteSvc B.serviceName B.ecsCluster] :
            List DeploymentTasks.EcsCall) ++ post) ∧
    ∀ c ∈ log, c.callServiceName = B.serviceName →
      c.isCreate = false ∧ c.isUpdateArn = false := by
  obtain ⟨log1, log2, h1, h2, rfl⟩ := updateServices_ok_parts w o log o1 h
  constructor
  · obtain ⟨hdel, pre, post, hL⟩ :=
      processRemovals_success_infix w _ log2 h2 B hB
    rw [deleteService_success w B hdel] at hL
    exact ⟨log1 ++ pre, post, by rw [hL]; simp [List.append_assoc]⟩
  · intro c hc hcn
    rcases List.mem_append.mp hc with hc1 | hc2
    · obtain ⟨st, hst, hcs⟩ :=
        processDesired_calls_from w o.services o.serviceTasks c (by rw [h1]; exact hc1)
      exact absurd (hcs.symm.trans hcn) (hname st hst)
    · exact processRemovals_calls_kind w _ c (by rw [h2]; exact hc2)

/-- Witness for the C4 theorem at a concrete orphan teardown: desired
set {A} over a current deployment also holding service B. -/
theorem orphan_service_teardown_witness :
    (∃ pre post,
      ([.describeSvc (some "app-A-prod") (some "main"),
        .updateSvcArn (some "app-A-prod") (some "main") (some "arn:A:1"),
        .updateSvcCount (some "app-B-prod") (some "main") 0,
        .deleteSvc (some "app-B-prod") (some "main")] :
          List DeploymentTasks.EcsCall)
        = pre ++
          ([.updateSvcCount tkBOldEx.serviceName tkBOldEx.ecsCluster 0,
            .deleteSvc tkBOldEx.serviceName tkBOldEx.ecsCluster] :
              List DeploymentTasks.EcsCall) ++ post) ∧
    ∀ c ∈ ([.describeSvc (some "app-A-prod") (some "main"),
        .updateSvcArn (some "app-A-prod") (some "main") (some "arn:A:1"),
        .updateSvcCount (some "app-B-prod") (some "main") 0,
        .deleteSvc (some "app-B-prod") (some "main")] :
          List DeploymentTasks.EcsCall),
      c.callServiceName = tkBOldEx.serviceName →
        c.isCreate = false ∧ c.isUpdateArn = false :=
  orphan_service_teardown wOkEx oOrphanEx
    [.describeSvc (some "app-A-prod") (some "main"),
     .updateSvcArn (some "app-A-prod") (some "main") (some "arn:A:1"),
     .updateSvcCount (some "app-B-prod") (some "main") 0,
     .deleteSvc (some "app-B-prod") (some "main")]
    oOrphanEx tkBOldEx (by rfl) (by decide) (by decide)

@[simp] theorem infoCurrentDeployment_trim (r : DeploymentRecord) :
    (DeploymentTasks.trimCurrentDeployment r).infoCurrentDeployment = none := by
  cases r; rfl

/-- C10: the fetched current active deployment has its nested
`deploymentInformation.currentDeployment` removed before the pipeline
uses it, so any Deployment record assembled by the finalize stage from
options whose `currentDeployment` came (unchanged through the
intermediate stages) from `getCurrentDeployment` embeds at most one
level of parent snapshot: its snapshot's `currentDeployment`, when
present, contains none of its own. -/
theorem parent_snapshot_depth_one (t : Table) (o o1 : DeploymentOptions)
    (hpass : o1.currentDeployment
      = (DeploymentTasks.getCurrentDeploymentStep t o).currentDeployment) :
    ∀ c, (DeploymentTasks.assembleDeployment o1).infoCurrentDeployment = some c →
      c.infoCurrentDeployment = none := by
  intro c hc
  simp only [DeploymentTasks.assembleDeployment,
    DeploymentRecord.infoCurrentDeployment_mk] at hc
  rw [hpass] at hc
  simp only [DeploymentTasks.getCurrentDeploymentStep, Option.map_eq_some'] at hc
  obtain ⟨r, _, rfl⟩ := hc
  exact infoCurrentDeployment_trim r

/-- Witness for the C10 theorem: the store record fetched as current
itself embeds a nested snapshot, which is stripped. -/
theorem parent_snapshot_depth_one_witness :
    (DeploymentTasks.trimCurrentDeployment pNestedEx).infoCurrentDeployment
      = none :=
  parent_snapshot_depth_one [pNestedEx] oEx
    (DeploymentTasks.getCurrentDeploymentStep [pNestedEx] oEx) rfl
    (DeploymentTasks.trimCurrentDeployment pNestedEx) (by rfl)

@[simp] theorem keyOf_trim (r : DeploymentRecord) :
    keyOf (DeploymentTasks.trimCurrentDeployment r) = keyOf r := by
  cases r; rfl

@[simp] theorem parentDeployment_trim (r : DeploymentRecord) :
    (DeploymentTasks.trimCurrentDeployment r).parentDeployment
      = r.parentDeployment := by
  cases r; rfl

theorem ne_noRollback_of_head {s : String}
    (h : s.data.head? ≠ some 'N') : s ≠ DeploymentTasks.noRollbackMsg := by
  intro hEq
  exact h (by rw [hEq]; rfl)

theorem wrapServiceError_ne_noRollback (a b : String) :
    DeploymentTasks.wrapServiceError a b ≠ DeploymentTasks.noRollbackMsg := by
  apply ne_noRollback_of_head
  unfold DeploymentTasks.wrapServiceError
  simp only [String.data_append]
  intro h
  simp only [List.cons_append, List.head?_cons] at h
  exact absurd h (by decide)

theorem deleteMsg_ne_noRollback (n : String) :
    "Error Deleting Service " ++ n ≠ DeploymentTasks.noRollbackMsg := by
  apply ne_noRollback_of_head
  simp only [String.data_append]
  intro h
  simp only [List.cons_append, List.head?_cons] at h
  exact absurd h (by decide)

theorem updateOneService_err_shape (w : DeploymentTasks.EcsWorld)
    (cfgs : List (String × TaskConfig)) (st : TaskItem) (e : String)
    (he : (DeploymentTasks.updateOneService w cfgs st).2 = some e) :
    ∃ m, e = DeploymentTasks.wrapServiceError st.taskId m := by
  unfold DeploymentTasks.updateOneService at he
  cases hd : w.describeRes st with
  | error e2 =>
    simp only [hd] at he
    exact ⟨e2, (Option.some.inj he).symm⟩
  | ok status =>
    simp only [hd] at he
    by_cases hact : (status == some "ACTIVE") = true
    · rw [if_pos hact] at he
      cases hu : w.updateRes st with
      | some e2 =>
        simp only [hu] at he
        exact ⟨e2, (Option.some.inj he).symm⟩
      | none => simp only [hu] at he; exact absurd he (by simp)
    · rw [if_neg hact] at he
      cases hl : cfgs.lookup st.taskId with
      | none =>
        simp only [hl] at he
        exact ⟨_, (Option.some.inj he).symm⟩
      | some tpl =>
        simp only [hl] at he
        cases hcr : w.createRes st with
        | some e2 =>
          simp only [hcr] at he
          exact ⟨e2, (Option.some.inj he).symm⟩
        | none => simp only [hcr] at he; exact absurd he (by simp)

theorem processDesired_err_shape (w : DeploymentTasks.EcsWorld)
    (cfgs : List (String × TaskConfig)) :
    ∀ (l : List TaskItem) (e : String),
      (DeploymentTasks.processDesiredServices w cfgs l).2 = some e →
      ∃ a m, e = DeploymentTasks.wrapServiceError a m := by
  intro l
  induction l with
  | nil =>
    intro e he
    simp [DeploymentTasks.processDesiredServices] at he
  | cons st rest ih =>
    intro e he
    simp only [DeploymentTasks.processDesiredServices] at he
    rcases hone : DeploymentTasks.updateOneService w cfgs st with ⟨log, err⟩
    rw [hone] at he
    cases err with
    | some e2 =>
      simp only at he
      obtain ⟨m, hm⟩ := updateOneService_err_shape w cfgs st e2 (by rw [hone])
      exact ⟨st.taskId, m, (Option.some.inj he).symm.trans hm⟩
    | none =>
      simp only at he
      exact ih e he

theorem deleteService_err_shape (w : DeploymentTasks.EcsWorld) (st : TaskItem)
    (e : String) (he : (DeploymentTasks.deleteService w st).2 = some e) :
    (∃ n, e = "Error Deleting Service " ++ n) ∨ w.deleteRes st = some e := by
  unfold DeploymentTasks.deleteService at he
  cases hs : w.scaleToZeroRes st with
  | some e2 =>
    rw [hs] at he
    exact Or.inl ⟨_, (Option.some.inj he).symm⟩
  | none =>
    rw [hs] at he
    exact Or.inr he

theorem processRemovals_err_shape (w : DeploymentTasks.EcsWorld) :
    ∀ (l : List TaskItem) (e : String),
      (DeploymentTasks.processRemovals w l).2 = some e →
      (∃ n, e = "Error Deleting Service " ++ n) ∨
      ∃ st, w.deleteRes st = some e := by
  intro l
  induction l with
  | nil =>
    intro e he
    simp [DeploymentTasks.processRemovals] at he
  | cons st rest ih =>
    intro e he
    simp only [DeploymentTasks.processRemovals] at he
    rcases hds : DeploymentTasks.deleteService w st with ⟨log, err⟩
    rw [hds] at he
    cases err with
    | some e2 =>
      simp only at he
      have heq : e2 = e := Option.some.inj he
      rcases deleteService_err_shape w st e2 (by rw [hds]) with h | h
      · exact Or.inl (heq ▸ h)
      · exact Or.inr ⟨st, heq ▸ h⟩
    | none =>
      simp only at he
      exact ih e he

theorem updateServices_err_shape (w : DeploymentTasks.EcsWorld)
    (o : DeploymentOptions) (log : List DeploymentTasks.EcsCall) (e : String)
    (h : DeploymentTasks.updateServices w o = (log, .error e)) :
    (∃ a m, e = DeploymentTasks.wrapServiceError a m) ∨
    (∃ n, e = "Error Deleting Service " ++ n) ∨
    ∃ st, w.deleteRes st = some e := by
  unfold DeploymentTasks.updateServices at h
  rcases h1 : DeploymentTasks.processDesiredServices w o.services o.serviceTasks
    with ⟨log1, err1⟩
  rw [h1] at h
  cases err1 with
  | some e1 =>
    simp only [Prod.mk.injEq] at h
    obtain ⟨rfl, he⟩ := h
    have heq : e1 = e := Except.error.inj he
    rw [← heq]
    exact Or.inl (processDesired_err_shape w o.services o.serviceTasks e1 (by rw [h1]))
  | none =>
    simp only at h
    rcases h2 : DeploymentTasks.processRemovals w
        (DeploymentTasks.removedServices o.currentDeployment o.serviceTasks)
      with ⟨log2, err2⟩
    rw [h2] at h
    cases err2 with
    | some e2 =>
      simp only [Prod.mk.injEq] at h
      obtain ⟨rfl, he⟩ := h
      have heq : e2 = e := Except.error.inj he
      rw [← heq]
      exact Or.inr (processRemovals_err_shape w _ e2 (by rw [h2]))
    | none =>
      simp only [Prod.mk.injEq] at h
      exact absurd h.2 (by simp)

theorem updateServices_ok_id (w : DeploymentTasks.EcsWorld)
    (o o1 : DeploymentOptions) (log : List DeploymentTasks.EcsCall)
    (h : DeploymentTasks.updateServices w o = (log, .ok o1)) : o1 = o := by
  unfold DeploymentTasks.updateServices at h
  rcases h1 : DeploymentTasks.processDesiredServices w o.services o.serviceTasks
    with ⟨log1, err1⟩
  rw [h1] at h
  cases err1 with
  | some e => simp only at h; exact absurd h (by simp)
  | none =>
    simp only at h
    rcases h2 : DeploymentTasks.processRemovals w
        (DeploymentTasks.removedServices o.currentDeployment o.serviceTasks)
      with ⟨log2, err2⟩
    rw [h2] at h
    cases err2 with
    | some e => simp only at h; exact absurd h (by simp)
    | none =>
      simp only [Prod.mk.injEq] at h
      exact (Except.ok.inj h.2).symm

theorem finalizeRollback_err_shape (u1 u2 : Bool) (t : Table)
    (o : DeploymentOptions) (e : String)
    (h : DeploymentTasks.finalizeRollback u1 u2 t o = .error e) :
    e = "update failed" ∨
    e = "TypeError: Cannot read property appName of undefined" := by
  unfold DeploymentTasks.finalizeRollback
    DeploymentCenter.setActiveStatusForDeployment at h
  cases hcd : o.currentDeployment with
  | none =>
    rw [hcd] at h
    exact Or.inr (Except.error.inj h).symm
  | some cur =>
    rw [hcd] at h
    cases u1 with
    | false =>
      simp only [Bool.false_eq_true, if_false] at h
      exact Or.inl (Except.error.inj h).symm
    | true =>
      simp only [if_true] at h
      cases hpr : o.parentDeploymentRec with
      | none =>
        rw [hpr] at h
        exact absurd h (by simp)
      | some par =>
        rw [hpr] at h
        cases u2 with
        | false =>
          simp only [Bool.false_eq_true, if_false] at h
          exact Or.inl (Except.error.inj h).symm
        | true =>
          simp only [if_true] at h
          exact absurd h (by simp)

/-- C9: rollback fails with the no-deployment-to-roll-back error exactly
when no current active deployment exists for the app and environment
(for absence, it rejects with that message before any ECS call; when a
current deployment exists, no path produces that message); otherwise,
after re-applying the parent-derived service-task set and templates
through the Service Reconciler, it deactivates the current deployment,
reactivates the parent only when a parent record exists, and returns the
(possibly absent) parent, marked active, as the new active record. -/
theorem rollback_spec (w : DeploymentTasks.EcsWorld) (t : Table)
    (o : DeploymentOptions)
    (hdel : ∀ st e, w.deleteRes st = some e →
      e ≠ DeploymentTasks.noRollbackMsg) :
    (DeploymentCenter.getCurrentDeployedVersion t o.AppName o.environment = none →
      DeploymentTasks.rollback w true true t o
        = ([], .error DeploymentTasks.noRollbackMsg)) ∧
    (∀ cur,
      DeploymentCenter.getCurrentDeployedVersion t o.AppName o.environment
        = some cur →
      (∀ log o4,
        DeploymentTasks.updateServices w
            (DeploymentTasks.extractSettingsFromParentDeployment t
              (DeploymentTasks.getCurrentDeploymentStep t o)) = (log, .ok o4) →
        DeploymentTasks.rollback w true true t o
          = (log, .ok
              (match DeploymentCenter.get t cur.parentDeployment with
               | some par =>
                 DeploymentCenter.dynamoUpdateActive
                   (DeploymentCenter.dynamoUpdateActive t (keyOf cur) 0)
                   (keyOf par) 1
               | none => DeploymentCenter.dynamoUpdateActive t (keyOf cur) 0,
               (DeploymentCenter.get t cur.parentDeployment).map
                 (fun par => setActiveAttr par 1)))) ∧
      ∀ u1 u2, (DeploymentTasks.rollback w u1 u2 t o).2
        ≠ .error DeploymentTasks.noRollbackMsg) := by
  constructor
  · intro hnone
    unfold DeploymentTasks.rollback
    have hreq : DeploymentTasks.requireCurrentDeployment
        (DeploymentTasks.getCurrentDeploymentStep t o)
        = .error DeploymentTasks.noRollbackMsg := by
      unfold DeploymentTasks.requireCurrentDeployment
        DeploymentTasks.getCurrentDeploymentStep
      simp [hnone]
    simp only [hreq]
  · intro cur hcur
    have hreq : DeploymentTasks.requireCurrentDeployment
        (DeploymentTasks.getCurrentDeploymentStep t o)
        = .ok (DeploymentTasks.getCurrentDeploymentStep t o) := by
      unfold DeploymentTasks.requireCurrentDeployment
        DeploymentTasks.getCurrentDeploymentStep
      simp [hcur]
    have hcd3 : (DeploymentTasks.extractSettingsFromParentDeployment t
        (DeploymentTasks.getCurrentDeploymentStep t o)).currentDeployment
        = some (DeploymentTasks.trimCurrentDeployment cur) := by
      unfold DeploymentTasks.extractSettingsFromParentDeployment
        DeploymentTasks.getCurrentDeploymentStep
      simp [hcur]
    have hpr3 : (DeploymentTasks.extractSettingsFromParentDeployment t
        (DeploymentTasks.getCurrentDeploymentStep t o)).parentDeploymentRec
        = DeploymentCenter.get t cur.parentDeployment := by
      unfold DeploymentTasks.extractSettingsFromParentDeployment
        DeploymentTasks.getCurrentDeploymentStep
      simp [hcur]
    constructor
    · intro log o4 hrec
      have ho4 := updateServices_ok_id w _ o4 log hrec
      subst ho4
      unfold DeploymentTasks.rollback
      simp only [hreq, hrec]
      unfold DeploymentTasks.finalizeRollback
        DeploymentCenter.setActiveStatusForDeployment
      rw [hcd3, hpr3]
      simp only [if_true, keyOf_trim]
      cases hget : DeploymentCenter.get t cur.parentDeployment with
      | none => simp
      | some par => simp
    · intro u1 u2 hbad
      unfold DeploymentTasks.rollback at hbad
      simp only [hreq] at hbad
      rcases hus : DeploymentTasks.updateServices w
          (DeploymentTasks.extractSettingsFromParentDeployment t
            (DeploymentTasks.getCurrentDeploymentStep t o))
        with ⟨log, res⟩
      rw [hus] at hbad
      cases res with
      | error e =>
        simp only at hbad
        have he : e = DeploymentTasks.noRollbackMsg := Except.error.inj hbad
        rcases updateServices_err_shape w _ log e hus with ⟨a, m, hm⟩ | ⟨n, hn⟩ | ⟨st, hst⟩
        · exact wrapServiceError_ne_noRollback a m (hm ▸ he)
        · exact deleteMsg_ne_noRollback n (hn ▸ he)
        · exact hdel st e hst he
      | ok o4 =>
        simp only at hbad
        rcases finalizeRollback_err_shape u1 u2 t o4 _ hbad with h | h
        · exact absurd h (by decide)
        · exact absurd h (by decide)

/-- Witness for the C9 theorem at a concrete store holding an active
current deployment and its inactive parent. -/
theorem rollback_spec_witness :
    (DeploymentCenter.getCurrentDeployedVersion t9Ex oEx.AppName oEx.environment
        = none →
      DeploymentTasks.rollback wOkEx true true t9Ex oEx
        = ([], .error DeploymentTasks.noRollbackMsg)) ∧
    (∀ cur,
      DeploymentCenter.getCurrentDeployedVersion t9Ex oEx.AppName oEx.environment
        = some cur →
      (∀ log o4,
        DeploymentTasks.updateServices wOkEx
            (DeploymentTasks.extractSettingsFromParentDeployment t9Ex
              (DeploymentTasks.getCurrentDeploymentStep t9Ex oEx))
          = (log, .ok o4) →
        DeploymentTasks.rollback wOkEx true true t9Ex oEx
          = (log, .ok
              (match DeploymentCenter.get t9Ex cur.parentDeployment with
               | some par =>
                 DeploymentCenter.dynamoUpdateActive
                   (DeploymentCenter.dynamoUpdateActive t9Ex (keyOf cur) 0)
                   (keyOf par) 1
               | none => DeploymentCenter.dynamoUpdateActive t9Ex (keyOf cur) 0,
               (DeploymentCenter.get t9Ex cur.parentDeployment).map
                 (fun par => setActiveAttr par 1)))) ∧
      ∀ u1 u2, (DeploymentTasks.rollback wOkEx u1 u2 t9Ex oEx).2
        ≠ .error DeploymentTasks.noRollbackMsg) :=
  rollback_spec wOkEx t9Ex oEx (fun st e h => by simp [wOkEx] at h)
